import Mathlib

/-!
Verification development for the file-integrity snapshot tool (`run.py`).

The script computes a content hash and modification timestamp per input file,
compares against the most recent stored snapshot, classifies entries as
new/changed/unchanged, and persists the result.  The definitions below are a
shallow embedding of the script's functions; file contents are byte lists,
the filesystem and the external digest primitive are explicit parameters.
-/

namespace HashScripts

/-- Scalar JSON values as they appear in snapshot records (the entries of a
parsed snapshot file may carry any JSON scalar in the `hash` field). -/
inductive JVal where
  | str (s : String)
  | num (n : Int)
  | bool (b : Bool)
  | null
deriving DecidableEq, Repr

/-- Python's `str(...)` on a scalar JSON value, as used by
`mark_changed_files` on the stored `hash` values. -/
def pyStr : JVal → String
  | JVal.str s => s
  | JVal.num n => toString n
  | JVal.bool true => "True"
  | JVal.bool false => "False"
  | JVal.null => "None"

/-- One file's record inside a snapshot: the `hash`, `modify` and (after
classification) `state` fields of the JSON object stored per path. -/
structure FileRecord where
  hash : JVal
  modify : JVal
  state : Option String
deriving DecidableEq, Repr

/-- A snapshot is a Python dict from path to record: an association list with
(for genuine dicts) pairwise-distinct keys, in insertion order. -/
abbrev Snapshot := List (String × FileRecord)

/-- Python dict lookup `d[k]` / `k in d` combined: first (unique) match. -/
def dictGet : Snapshot → String → Option FileRecord
  | [], _ => none
  | e :: es, fn => if e.1 = fn then some e.2 else dictGet es fn

/-- The keys of a snapshot, in insertion order. -/
def dictKeys (s : Snapshot) : List String := s.map Prod.fst

/-- Python dict assignment `d[k] = v`: overwrites in place when the key is
present, otherwise appends at the end. -/
def dictInsert : Snapshot → String → FileRecord → Snapshot
  | [], fn, r => [(fn, r)]
  | e :: es, fn, r => if e.1 = fn then (fn, r) :: es else e :: dictInsert es fn r

/-! ### Content Fingerprinter (`get_hash`, lines 85-100)

`get_hash` reads the file in chunks of 32768 bytes, feeding each chunk to an
md5 accumulator, and returns the accumulator's hex digest.  The digest
primitive is external (`hashlib`); it is modelled by an arbitrary function
`H : List Nat → String` applied to the concatenation of all bytes fed in,
which is exactly the `update`/`hexdigest` contract of a streaming digest. -/

/-- The chunked read loop, with a fuel bound on the number of reads (the
remaining byte count bounds it, since every successful read of a positive
chunk size consumes at least one byte).  A read size of `0` immediately
yields the empty (falsy) chunk, ending the loop with no chunks consumed,
matching `while chunk := f.read(c)`. -/
def readChunksFuel (c : Nat) : Nat → List Nat → List (List Nat)
  | _, [] => []
  | 0, _ :: _ => []
  | fuel + 1, x :: xs => if c = 0 then [] else (x :: xs).take c :: readChunksFuel c fuel ((x :: xs).drop c)

/-- The successive chunks produced by `f.read(c)` until an empty read. -/
def chunksOf (c : Nat) (l : List Nat) : List (List Nat) :=
  readChunksFuel c l.length l

/-- `get_hash` with an explicit chunk size `c`: the digest `H` applied to the
bytes accumulated by the chunked read loop. -/
def get_hash_chunked (H : List Nat → String) (c : Nat) (content : List Nat) : String :=
  H ((chunksOf c content).foldl (fun acc ch => acc ++ ch) [])

/-- `get_hash` (lines 85-100): the chunk size used by the source is 32768. -/
def get_hash (H : List Nat → String) (content : List Nat) : String :=
  get_hash_chunked H 32768 content

/-! ### Snapshot Builder (`get_curr_files_data`, lines 120-150)

The filesystem is a partial map `fs` from path to byte content (`none` models
a path that does not exist or cannot be read: both the `Path(...).exists()`
check and any exception raised while hashing lead to the same `continue`).
`mt` models `get_modification_date`, an external filesystem/mtime query. -/

/-- One iteration of the builder's loop: skip a missing/unreadable file,
otherwise insert the record with its hash, modification date and no state. -/
def currStep (H : List Nat → String) (fs : String → Option (List Nat))
    (mt : String → String) (acc : Snapshot) (fn : String) : Snapshot :=
  match fs fn with
  | none => acc
  | some content =>
      dictInsert acc fn ⟨JVal.str (get_hash H content), JVal.str (mt fn), none⟩

/-- `get_curr_files_data` (lines 120-150): fold the per-file step over the
input list, starting from the empty dict.  Total: every per-file failure is
swallowed by the `except` clause, never escaping the loop. -/
def get_curr_files_data (H : List Nat → String) (fs : String → Option (List Nat))
    (mt : String → String) (filenames : List String) : Snapshot :=
  filenames.foldl (currStep H fs mt) []

/-! ### Snapshot Store (`get_last_info_filename`, lines 187-204;
`get_prev_files_data`, lines 153-184; persist in `main`, lines 258-264) -/

/-- Code-point-wise lexicographic comparison of character lists: the order
Python uses to compare and sort strings. -/
def charListLe : List Char → List Char → Bool
  | [], _ => true
  | _ :: _, [] => false
  | a :: as, b :: bs =>
    if a.toNat < b.toNat then true
    else if b.toNat < a.toNat then false
    else charListLe as bs

/-- Python's `s1 <= s2` on strings: lexicographic by code point. -/
def strLe (a b : String) : Bool := charListLe a.data b.data

/-- The descending order used by `filenames.sort(reverse=True)`. -/
def strGeRel (a b : String) : Prop := strLe b a = true

instance : DecidableRel strGeRel := fun a b => inferInstanceAs (Decidable (strLe b a = true))

/-- Whether a name starts with a dot (hidden entry, skipped by `glob`). -/
def startsWithDot (n : String) : Bool :=
  match n.data with
  | '.' :: _ => true
  | _ => false

/-- Whether a directory entry is matched by the glob pattern `*.json`:
any non-hidden name ending in `.json` (glob does not match names starting
with a dot unless the pattern does). -/
def matchesJsonGlob (n : String) : Bool :=
  List.isSuffixOf ".json".data n.data && !startsWithDot n

/-- `get_last_info_filename` (lines 187-204): `glob(folder + "/*.json")`,
sort descending, take the first element if any.  The directory listing is
the explicit argument; a nonexistent directory yields the empty listing
(`glob` returns `[]` there).  Names are kept relative to the folder: the
shared `folder/` prefix of the globbed paths does not affect their order. -/
def get_last_info_filename (listing : List String) : Option String :=
  (List.insertionSort strGeRel (listing.filter matchesJsonGlob)).head?

/-- The top-level value of a parsed snapshot file: a JSON object (a dict,
whose items are path-keyed records), or some other JSON value (array,
scalar, ...), on which `.items()` raises `AttributeError`. -/
inductive JsonTop where
  | obj (entries : Snapshot)
  | otherJson
deriving DecidableEq, Repr

/-- `get_prev_files_data` (lines 153-184).  `readJson` models
`open` + `json.load` on the chosen file: `none` when the file is missing,
unreadable or not valid JSON (the exception is caught inside the `try`,
returning the empty dict).  When the parsed value is not an object, the
logging loop `prev_files_data.items()` — which sits outside the `try` —
raises, and that exception escapes the function (`Except.error`). -/
def get_prev_files_data (listing : List String)
    (readJson : String → Option JsonTop) : Except String Snapshot :=
  match get_last_info_filename listing with
  | none => Except.ok []
  | some fn =>
      match readJson fn with
      | none => Except.ok []
      | some (JsonTop.obj entries) => Except.ok entries
      | some JsonTop.otherJson => Except.error "AttributeError: no attribute items"

/-- Key order used by `json.dump(..., sort_keys=True)`. -/
def keyLE (a b : String × FileRecord) : Prop := strLe a.1 b.1 = true

instance : DecidableRel keyLE := fun a b => inferInstanceAs (Decidable (strLe a.1 b.1 = true))

/-- `main` lines 262-264 followed by `get_prev_files_data` lines 171-177:
`json.dump(curr_records, f, sort_keys=True)` writes the dict's entries
sorted by key, and `json.load` parses them back in file order.  At the data
level the save-then-load composition is the key-sorted entry list. -/
def save_then_load (s : Snapshot) : Snapshot := List.insertionSort keyLE s

/-! ### Change Classifier (`mark_changed_files`, lines 207-235)

`mark_changed_files(prev_records, curr_records)` iterates over the items of
`curr_records` and assigns `curr_record['state']` in place; `prev_records`
is only read.  The in-place mutation of the two dicts is modelled by a pair
state `(prev, curr)` threaded through the loop; the function's value is the
final pair.  The loop reads `curr_record['hash']` from the iterated entry:
the loop never writes any `hash` field, so this is the live value. -/

/-- The state string computed for one current entry (lines 222-233):
`new` when the path is absent from `prev`, otherwise `changed`/`unchanged`
by comparing `str(...)` of the two stored hashes. -/
def stateFor (prev : Snapshot) (fn : String) (r : FileRecord) : String :=
  match dictGet prev fn with
  | none => "new"
  | some p => if pyStr r.hash ≠ pyStr p.hash then "changed" else "unchanged"

/-- A current record after classification: only its `state` field is
written (`curr_record['state'] = ...`). -/
def classifyRecord (prev : Snapshot) (fn : String) (r : FileRecord) : FileRecord :=
  { r with state := some (stateFor prev fn r) }

/-- The in-place assignment `curr_record['state'] = st` on the dict: the
entry (entries) keyed `fn` get their state replaced, nothing else moves. -/
def setState (s : Snapshot) (fn : String) (st : String) : Snapshot :=
  s.map (fun e => if e.1 = fn then (e.1, { e.2 with state := some st }) else e)

/-- One iteration of the classification loop over `(prev, curr)`. -/
def markLoopStep (st : Snapshot × Snapshot) (e : String × FileRecord) :
    Snapshot × Snapshot :=
  (st.1, setState st.2 e.1 (stateFor st.1 e.1 e.2))

/-- `mark_changed_files` (lines 207-235): fold the loop over the items of
`curr`, starting from the pair of argument dicts; the result is the final
state of `(prev_records, curr_records)` after the call returns. -/
def mark_changed_files (prev curr : Snapshot) : Snapshot × Snapshot :=
  curr.foldl markLoopStep (prev, curr)

/-- The classified current snapshot, rebuilt entrywise: equal to the second
component of `mark_changed_files` whenever `curr` has dict-unique keys. -/
def markAll (prev curr : Snapshot) : Snapshot :=
  curr.map (fun e => (e.1, classifyRecord prev e.1 e.2))

/-- One in-place update as seen by a single entry `cur` of the dict being
mutated: the update for iterated item `upd` touches `cur` exactly when the
keys agree. -/
def updOne (prev : Snapshot) (cur upd : String × FileRecord) :
    String × FileRecord :=
  if cur.1 = upd.1 then (cur.1, { cur.2 with state := some (stateFor prev upd.1 upd.2) }) else cur

/-- The effect of the whole loop on a single entry of the mutated dict. -/
def applyUpds (prev : Snapshot) (l : Snapshot) (e : String × FileRecord) :
    String × FileRecord :=
  l.foldl (updOne prev) e

/-! ### Run Orchestrator prologue (`__main__`, lines 275-296)

The `try` block reads `sys.argv[1]` (an `IndexError` when the argument is
absent is an `Exception`) and loads the config; on any exception it calls
`print(...)` — which writes to standard output — and `exit(1)`.  The logger
is configured only later (line 296). -/

/-- A parsed JSON config object. -/
abbrev ConfigDict := List (String × JVal)

/-- Observable outcome of the `__main__` prologue up to logger setup. -/
structure PrologueResult where
  exitCode : Option Nat
  stdoutLines : List String
  stderrLines : List String
  loggerConfigured : Bool
deriving DecidableEq, Repr

/-- The diagnostic printed on a config-load failure (line 282). -/
def configErrorMessage : String :=
  "Не удалось загрузить конфиг из-за ошибки: ..."

/-- Lines 275-296 of `__main__`: `argv` is the process argument vector and
`loadConfig` models `get_config` (`none` = the file is missing, unreadable
or unparseable, i.e. `open`/`json.load` raised).  On failure the diagnostic
goes to standard output via `print` and the process exits with code 1
before `setup_logger` runs; on success execution continues and the logger
is configured. -/
def main_prologue (argv : List String) (loadConfig : String → Option ConfigDict) :
    PrologueResult :=
  match argv[1]? with
  | none => ⟨some 1, [configErrorMessage], [], false⟩
  | some cf =>
      match loadConfig cf with
      | none => ⟨some 1, [configErrorMessage], [], false⟩
      | some _ => ⟨none, [], [], true⟩

/-! ## Lemmas: the string order -/

theorem charListLe_refl : ∀ l : List Char, charListLe l l = true
  | [] => rfl
  | a :: as => by simp [charListLe, charListLe_refl as]

theorem charListLe_total : ∀ as bs, charListLe as bs = true ∨ charListLe bs as = true
  | [], _ => Or.inl rfl
  | _ :: _, [] => Or.inr rfl
  | a :: as, b :: bs => by
    by_cases h1 : a.toNat < b.toNat
    · left; simp [charListLe, h1]
    · by_cases h2 : b.toNat < a.toNat
      · right; simp [charListLe, h2]
      · rcases charListLe_total as bs with h | h
        · left; simp [charListLe, h1, h2, h]
        · right; simp [charListLe, h1, h2, h]

theorem charListLe_trans :
    ∀ as bs cs, charListLe as bs = true → charListLe bs cs = true → charListLe as cs = true
  | [], _, _ => fun _ _ => rfl
  | _ :: _, [], _ => by intro h1 _; simp [charListLe] at h1
  | _ :: _, _ :: _, [] => by intro _ h2; simp [charListLe] at h2
  | a :: as, b :: bs, c :: cs => by
    intro h1 h2
    simp only [charListLe] at h1 h2 ⊢
    by_cases hba : b.toNat < a.toNat
    · rw [if_neg (by omega : ¬ a.toNat < b.toNat), if_pos hba] at h1
      exact Bool.noConfusion h1
    · by_cases hcb : c.toNat < b.toNat
      · rw [if_neg (by omega : ¬ b.toNat < c.toNat), if_pos hcb] at h2
        exact Bool.noConfusion h2
      · by_cases hab : a.toNat < b.toNat
        · rw [if_pos (by omega : a.toNat < c.toNat)]
        · by_cases hbc : b.toNat < c.toNat
          · rw [if_pos (by omega : a.toNat < c.toNat)]
          · rw [if_neg hab, if_neg hba] at h1
            rw [if_neg hbc, if_neg hcb] at h2
            rw [if_neg (by omega : ¬ a.toNat < c.toNat),
              if_neg (by omega : ¬ c.toNat < a.toNat)]
            exact charListLe_trans as bs cs h1 h2

theorem strLe_refl (a : String) : strLe a a = true := charListLe_refl a.data

theorem strLe_trans {a b c : String} (h1 : strLe a b = true) (h2 : strLe b c = true) :
    strLe a c = true := charListLe_trans a.data b.data c.data h1 h2

instance : IsTotal String strGeRel := ⟨fun a b => charListLe_total b.data a.data⟩

instance : IsTrans String strGeRel :=
  ⟨fun _ _ _ hab hbc => charListLe_trans _ _ _ hbc hab⟩

/-! ## Lemmas: the chunked read loop -/

theorem readChunksFuel_foldl (c : Nat) (hc : 0 < c) :
    ∀ (fuel : Nat) (l acc : List Nat), l.length ≤ fuel →
      (readChunksFuel c fuel l).foldl (fun a b => a ++ b) acc = acc ++ l := by
  intro fuel
  induction fuel with
  | zero =>
    intro l acc h
    have hl : l = [] := List.eq_nil_of_length_eq_zero (Nat.le_zero.mp h)
    subst hl
    simp [readChunksFuel]
  | succ n ih =>
    intro l acc h
    cases l with
    | nil => simp [readChunksFuel]
    | cons x xs =>
      have hcne : c ≠ 0 := by omega
      simp only [readChunksFuel, if_neg hcne, List.foldl_cons]
      rw [ih ((x :: xs).drop c) (acc ++ (x :: xs).take c)
        (by simp only [List.length_drop, List.length_cons]; simp at h; omega)]
      rw [List.append_assoc, List.take_append_drop]

/-! ## Lemmas: dict operations -/

theorem mem_dictKeys {s : Snapshot} {fn : String} :
    fn ∈ dictKeys s ↔ ∃ r, (fn, r) ∈ s := by
  induction s with
  | nil => simp [dictKeys]
  | cons e es ih =>
    simp only [dictKeys, List.map_cons, List.mem_cons] at *
    constructor
    · rintro (h | h)
      · exact ⟨e.2, Or.inl (by rw [h])⟩
      · obtain ⟨r, hr⟩ := ih.mp h
        exact ⟨r, Or.inr hr⟩
    · rintro ⟨r, h | h⟩
      · left; exact congrArg Prod.fst h
      · right; exact ih.mpr ⟨r, h⟩

theorem dictGet_none_iff {s : Snapshot} {fn : String} :
    dictGet s fn = none ↔ fn ∉ dictKeys s := by
  induction s with
  | nil => simp [dictGet, dictKeys]
  | cons e es ih =>
    simp only [dictGet, dictKeys, List.map_cons, List.mem_cons]
    by_cases h : e.1 = fn
    · simp [h]
    · simp only [if_neg h, ih, dictKeys]
      constructor
      · intro hn
        rintro (hc | hc)
        · exact h hc.symm
        · exact hn hc
      · intro hn hc
        exact hn (Or.inr hc)

theorem dictGet_mem {s : Snapshot} {fn : String} {r : FileRecord}
    (h : dictGet s fn = some r) : (fn, r) ∈ s := by
  induction s with
  | nil => exact Option.noConfusion h
  | cons e es ih =>
    rw [dictGet] at h
    by_cases he : e.1 = fn
    · rw [if_pos he] at h
      exact List.mem_cons.mpr (Or.inl (by rw [← he, ← Option.some_inj.mp h]))
    · rw [if_neg he] at h
      exact List.mem_cons_of_mem e (ih h)

theorem dictGet_some_of_mem {s : Snapshot} {fn : String} {r : FileRecord}
    (hnd : (dictKeys s).Nodup) (h : (fn, r) ∈ s) : dictGet s fn = some r := by
  induction s with
  | nil => cases h
  | cons e es ih =>
    rw [dictKeys, List.map_cons, List.nodup_cons] at hnd
    rcases List.mem_cons.mp h with he | he
    · have h1 : e.1 = fn := (congrArg Prod.fst he).symm
      have h2 : e.2 = r := (congrArg Prod.snd he).symm
      rw [dictGet, if_pos h1, h2]
    · have hkey : fn ∈ dictKeys es := mem_dictKeys.mpr ⟨r, he⟩
      have hne : e.1 ≠ fn := fun hc => hnd.1 (hc ▸ hkey)
      rw [dictGet, if_neg hne]
      exact ih hnd.2 he

theorem dictGet_dictInsert_self (s : Snapshot) (fn : String) (r : FileRecord) :
    dictGet (dictInsert s fn r) fn = some r := by
  induction s with
  | nil => simp [dictInsert, dictGet]
  | cons e es ih =>
    rw [dictInsert]
    by_cases h : e.1 = fn
    · rw [if_pos h, dictGet, if_pos rfl]
    · rw [if_neg h, dictGet, if_neg h]
      exact ih

theorem dictGet_dictInsert_ne (s : Snapshot) (fn g : String) (r : FileRecord)
    (h : g ≠ fn) : dictGet (dictInsert s fn r) g = dictGet s g := by
  have hfg : ¬ fn = g := fun hc => h hc.symm
  induction s with
  | nil => simp [dictInsert, dictGet, hfg]
  | cons e es ih =>
    rw [dictInsert]
    by_cases he : e.1 = fn
    · have hne : ¬ e.1 = g := fun hc => hfg (he.symm.trans hc)
      rw [if_pos he, dictGet, dictGet, if_neg hfg, if_neg hne]
    · rw [if_neg he, dictGet, dictGet]
      by_cases hg : e.1 = g
      · rw [if_pos hg, if_pos hg]
      · rw [if_neg hg, if_neg hg]
        exact ih

/-! ## Lemmas: the Snapshot Builder -/

theorem foldl_currStep_isSome (H : List Nat → String) (fs : String → Option (List Nat))
    (mt : String → String) :
    ∀ (fns : List String) (acc : Snapshot) (fn : String),
      (dictGet (fns.foldl (currStep H fs mt) acc) fn).isSome = true ↔
        ((fn ∈ fns ∧ (fs fn).isSome = true) ∨ (dictGet acc fn).isSome = true) := by
  intro fns
  induction fns with
  | nil => intro acc fn; simp
  | cons g gs ih =>
    intro acc fn
    rw [List.foldl_cons, ih]
    have hstep : (dictGet (currStep H fs mt acc g) fn).isSome = true ↔
        ((fn = g ∧ (fs fn).isSome = true) ∨ (dictGet acc fn).isSome = true) := by
      by_cases hfg : fn = g
      · subst hfg
        rw [currStep]
        cases hq : fs fn with
        | none => simp [hq]
        | some content => simp [hq, dictGet_dictInsert_self]
      · rw [currStep]
        cases hq : fs g with
        | none => simp [hfg]
        | some content => simp [hfg, dictGet_dictInsert_ne acc g fn _ hfg]
    rw [hstep, List.mem_cons]
    tauto

/-! ## Lemmas: the Change Classifier loop -/

theorem foldl_markLoopStep (p : Snapshot) :
    ∀ (l : List (String × FileRecord)) (c : Snapshot),
      l.foldl markLoopStep (p, c) =
        (p, l.foldl (fun acc e => setState acc e.1 (stateFor p e.1 e.2)) c) := by
  intro l
  induction l with
  | nil => intro c; rfl
  | cons e es ih =>
    intro c
    rw [List.foldl_cons, List.foldl_cons]
    exact ih (setState c e.1 (stateFor p e.1 e.2))

theorem updOne_fst (p : Snapshot) (e u : String × FileRecord) :
    (updOne p e u).1 = e.1 := by
  unfold updOne
  split
  · rfl
  · rfl

theorem applyUpds_fst (p : Snapshot) :
    ∀ (l : Snapshot) (e : String × FileRecord), (applyUpds p l e).1 = e.1 := by
  intro l
  induction l with
  | nil => intro e; rfl
  | cons u us ih =>
    intro e
    rw [applyUpds, List.foldl_cons]
    exact (ih (updOne p e u)).trans (updOne_fst p e u)

theorem foldl_setState_eq_map (p : Snapshot) :
    ∀ (l : List (String × FileRecord)) (c : Snapshot),
      l.foldl (fun acc e => setState acc e.1 (stateFor p e.1 e.2)) c =
        c.map (applyUpds p l) := by
  intro l
  induction l with
  | nil =>
    intro c
    rw [List.foldl_nil, show applyUpds p [] = id from funext fun _ => rfl, List.map_id]
  | cons u us ih =>
    intro c
    rw [List.foldl_cons, ih]
    simp only [setState, List.map_map]
    rfl

theorem applyUpds_skip (p : Snapshot) :
    ∀ (l : Snapshot) (e : String × FileRecord),
      (∀ u ∈ l, e.1 ≠ u.1) → applyUpds p l e = e := by
  intro l
  induction l with
  | nil => intro e _; rfl
  | cons u us ih =>
    intro e h
    rw [applyUpds, List.foldl_cons]
    have h1 : updOne p e u = e := by
      unfold updOne
      rw [if_neg (h u (List.mem_cons_self u us))]
    rw [h1]
    exact ih e (fun w hw => h w (List.mem_cons_of_mem u hw))

theorem applyUpds_mem (p : Snapshot) :
    ∀ (l : Snapshot) (e : String × FileRecord), e ∈ l → (dictKeys l).Nodup →
      applyUpds p l e = (e.1, classifyRecord p e.1 e.2) := by
  intro l
  induction l with
  | nil => intro e h; cases h
  | cons u us ih =>
    intro e hmem hnd
    rw [dictKeys, List.map_cons, List.nodup_cons] at hnd
    rcases List.mem_cons.mp hmem with he | he
    · subst he
      rw [applyUpds, List.foldl_cons]
      have h1 : updOne p e e = (e.1, classifyRecord p e.1 e.2) := by
        unfold updOne classifyRecord
        rw [if_pos rfl]
      rw [h1]
      exact applyUpds_skip p us (e.1, classifyRecord p e.1 e.2)
        (fun w hw hc => hnd.1 (hc ▸ List.mem_map_of_mem Prod.fst hw))
    · have hne : e.1 ≠ u.1 := by
        intro hc
        exact hnd.1 (hc ▸ mem_dictKeys.mpr ⟨e.2, by rw [show ((e.1 : String), e.2) = e from rfl]; exact he⟩)
      rw [applyUpds, List.foldl_cons]
      have h1 : updOne p e u = e := by
        unfold updOne
        rw [if_neg hne]
      rw [h1]
      exact ih e he hnd.2

theorem mark_changed_files_fst (prev curr : Snapshot) :
    (mark_changed_files prev curr).1 = prev := by
  rw [mark_changed_files, foldl_markLoopStep]

theorem mark_changed_files_snd (prev curr : Snapshot)
    (hnd : (dictKeys curr).Nodup) :
    (mark_changed_files prev curr).2 = markAll prev curr := by
  rw [mark_changed_files, foldl_markLoopStep]
  show curr.foldl (fun acc e => setState acc e.1 (stateFor prev e.1 e.2)) curr = _
  rw [foldl_setState_eq_map]
  exact List.map_congr_left (fun e he => applyUpds_mem prev curr e he hnd)

theorem mark_changed_files_snd_keys (prev curr : Snapshot) :
    dictKeys (mark_changed_files prev curr).2 = dictKeys curr := by
  rw [mark_changed_files, foldl_markLoopStep]
  show dictKeys (curr.foldl (fun acc e => setState acc e.1 (stateFor prev e.1 e.2)) curr) = _
  rw [foldl_setState_eq_map]
  simp only [dictKeys, List.map_map]
  exact List.map_congr_left (fun e _ => applyUpds_fst prev curr e)

theorem dictGet_markAll (prev : Snapshot) :
    ∀ (curr : Snapshot) (fn : String),
      dictGet (markAll prev curr) fn = (dictGet curr fn).map (classifyRecord prev fn) := by
  intro curr
  induction curr with
  | nil => intro fn; rfl
  | cons e es ih =>
    intro fn
    simp only [markAll, List.map_cons, dictGet]
    by_cases h : e.1 = fn
    · subst h
      rw [if_pos rfl, if_pos rfl, Option.map_some']
    · rw [if_neg h, if_neg h]
      exact ih fn

/-! ## Claim theorems -/

/-- C1: classification assigns each entry of the current snapshot, keyed by
path, the state `new` when the path is absent from the previous snapshot,
`changed` when present in both with differing hash strings, and `unchanged`
otherwise; the `modify` field plays no role (it is arbitrary here and is
carried over unchanged), so identical hash with differing modification time
still yields `unchanged`. -/
theorem c1_classification_by_hash (prev curr : Snapshot) (fn : String) (r : FileRecord)
    (hnd : (dictKeys curr).Nodup) (hmem : (fn, r) ∈ curr) :
    dictGet (mark_changed_files prev curr).2 fn = some (classifyRecord prev fn r) ∧
    (classifyRecord prev fn r).hash = r.hash ∧
    (classifyRecord prev fn r).modify = r.modify ∧
    (dictGet prev fn = none → (classifyRecord prev fn r).state = some "new") ∧
    (∀ p s t, dictGet prev fn = some p → r.hash = JVal.str s → p.hash = JVal.str t →
      (classifyRecord prev fn r).state = some (if s = t then "unchanged" else "changed")) := by
  refine ⟨?_, rfl, rfl, ?_, ?_⟩
  · rw [mark_changed_files_snd prev curr hnd, dictGet_markAll,
      dictGet_some_of_mem hnd hmem, Option.map_some']
  · intro h
    show some (stateFor prev fn r) = some "new"
    simp only [stateFor, h]
  · intro p s t hp hr hps
    show some (stateFor prev fn r) = some (if s = t then "unchanged" else "changed")
    simp only [stateFor, hp, hr, hps, pyStr]
    by_cases hst : s = t
    · simp [hst]
    · simp [hst]

/-- C1 witness: a path present in both snapshots with identical hash but a
different `modify` timestamp is classified `unchanged`. -/
theorem c1_witness :
    dictGet (mark_changed_files
        [("a", ⟨JVal.str "h", JVal.str "2024-01-01 00:00:00", none⟩)]
        [("a", ⟨JVal.str "h", JVal.str "2025-06-30 12:00:00", none⟩)]).2 "a" =
      some ⟨JVal.str "h", JVal.str "2025-06-30 12:00:00", some "unchanged"⟩ :=
  ((c1_classification_by_hash
      [("a", ⟨JVal.str "h", JVal.str "2024-01-01 00:00:00", none⟩)]
      [("a", ⟨JVal.str "h", JVal.str "2025-06-30 12:00:00", none⟩)]
      "a" ⟨JVal.str "h", JVal.str "2025-06-30 12:00:00", none⟩
      (by decide) (by decide)).1).trans (by decide)

/-- C2 counterexample: `get_last_info_filename` does not restrict itself to
the `scripts_info_<timestamp>.json` pattern — it matches every `*.json`
entry.  A directory holding only `other.json` yields `some` instead of the
`none` the claim requires, and an interloper `zz.json` wins over a genuine
snapshot name. -/
theorem c2_counterexample :
    get_last_info_filename ["other.json"] = some "other.json" ∧
    get_last_info_filename ["scripts_info_20240101T000000.json", "zz.json"] =
      some "zz.json" := by
  constructor
  · decide
  · decide

/-- C2 (amended): `get_last_info_filename` lists the files matching the glob
`*.json` (any non-hidden name ending in `.json`, not only
`scripts_info_<timestamp>.json`), returns the lexicographically greatest
such name, and returns `none` exactly when there is no such file — in
particular for the empty listing a nonexistent directory produces. -/
theorem c2_latest_json_selection (listing : List String) :
    (get_last_info_filename listing = none ↔ listing.filter matchesJsonGlob = []) ∧
    (∀ fn, get_last_info_filename listing = some fn →
      fn ∈ listing.filter matchesJsonGlob ∧
        ∀ g ∈ listing.filter matchesJsonGlob, strLe g fn = true) := by
  have hperm := List.perm_insertionSort strGeRel (listing.filter matchesJsonGlob)
  have hs := List.sorted_insertionSort strGeRel (listing.filter matchesJsonGlob)
  constructor
  · rw [get_last_info_filename, List.head?_eq_none_iff]
    constructor
    · intro h
      exact (h ▸ hperm).symm.eq_nil
    · intro h
      rw [h]
      rfl
  · intro fn h
    rw [get_last_info_filename] at h
    cases hS : List.insertionSort strGeRel (listing.filter matchesJsonGlob) with
    | nil => rw [hS] at h; exact Option.noConfusion h
    | cons a tl =>
      rw [hS] at h hperm hs
      have ha : a = fn := Option.some_inj.mp h
      subst ha
      constructor
      · exact hperm.mem_iff.mp (List.mem_cons_self a tl)
      · intro g hg
        rcases List.mem_cons.mp (hperm.mem_iff.mpr hg) with hga | hgtl
        · rw [hga]
          exact strLe_refl a
        · exact ((List.sorted_cons.mp hs).1 g hgtl : strGeRel a g)

/-- C2 witness: on a two-entry listing the greatest `.json` name is
returned, it is among the matches, and it dominates every match. -/
theorem c2_witness :
    "b.json" ∈ List.filter matchesJsonGlob ["a.json", "b.json"] ∧
      ∀ g ∈ List.filter matchesJsonGlob ["a.json", "b.json"], strLe g "b.json" = true :=
  (c2_latest_json_selection ["a.json", "b.json"]).2 "b.json" (by decide)

/-- C3: the Snapshot Builder isolates per-file failures: the built snapshot
has an entry for a path exactly when that path appears in the input list and
exists/is readable on the filesystem; a missing file is simply absent (and
the builder, a total function, lets no exception escape). -/
theorem c3_per_file_isolation (H : List Nat → String) (fs : String → Option (List Nat))
    (mt : String → String) (filenames : List String) (fn : String) :
    (∃ r, dictGet (get_curr_files_data H fs mt filenames) fn = some r) ↔
      (fn ∈ filenames ∧ (fs fn).isSome = true) := by
  rw [← Option.isSome_iff_exists, get_curr_files_data, foldl_currStep_isSome]
  simp [dictGet]

/-- C3 witness: with input list `[A, B, C]` where `B` does not exist on
disk, the built snapshot has an entry for `A` and none for `B`. -/
theorem c3_witness :
    (∃ r, dictGet (get_curr_files_data (fun _ => "d")
        (fun n => if n = "B" then none else some [1]) (fun _ => "m")
        ["A", "B", "C"]) "A" = some r) ∧
    ¬ (∃ r, dictGet (get_curr_files_data (fun _ => "d")
        (fun n => if n = "B" then none else some [1]) (fun _ => "m")
        ["A", "B", "C"]) "B" = some r) :=
  ⟨(c3_per_file_isolation (fun _ => "d") (fun n => if n = "B" then none else some [1])
      (fun _ => "m") ["A", "B", "C"] "A").mpr (by decide),
    fun h => absurd ((c3_per_file_isolation (fun _ => "d")
      (fun n => if n = "B" then none else some [1])
      (fun _ => "m") ["A", "B", "C"] "B").mp h) (by decide)⟩

/-- C4 counterexample: a prior snapshot file whose content is valid JSON but
not an object (e.g. a top-level array) is malformed, yet
`get_prev_files_data` does not recover: the `.items()` logging loop sits
outside the `try`, so the exception escapes instead of yielding the empty
snapshot. -/
theorem c4_counterexample :
    get_prev_files_data ["scripts_info_20240101T000000.json"]
        (fun _ => some JsonTop.otherJson) =
      Except.error "AttributeError: no attribute items" ∧
    get_prev_files_data ["scripts_info_20240101T000000.json"]
        (fun _ => some JsonTop.otherJson) ≠ Except.ok [] := by
  constructor
  · rfl
  · intro hc
    have h1 : get_prev_files_data ["scripts_info_20240101T000000.json"]
        (fun _ => some JsonTop.otherJson) =
        Except.error "AttributeError: no attribute items" := rfl
    rw [h1] at hc
    exact Except.noConfusion hc

/-- C4 (amended): when the most recent prior snapshot file is missing, or
is unreadable or not decodable as JSON (`open`/`json.load` raise inside the
`try`), loading prior history recovers by returning the empty snapshot and
no exception propagates; a file decoding to a non-object JSON value,
however, raises out of the load. -/
theorem c4_history_read_recovery (listing : List String)
    (readJson : String → Option JsonTop)
    (h : get_last_info_filename listing = none ∨
      (∀ fn, get_last_info_filename listing = some fn → readJson fn = none)) :
    get_prev_files_data listing readJson = Except.ok [] := by
  rcases h with h | h
  · simp only [get_prev_files_data, h]
  · cases hl : get_last_info_filename listing with
    | none => simp only [get_prev_files_data, hl]
    | some fn => simp only [get_prev_files_data, hl, h fn hl]

/-- C4 witness: an empty store (first run) loads as the empty snapshot. -/
theorem c4_witness : get_prev_files_data [] (fun _ => none) = Except.ok [] :=
  c4_history_read_recovery [] (fun _ => none) (Or.inl (by decide))

/-- C5: saving a snapshot (`json.dump` with `sort_keys=True`) and loading it
back yields a structurally equal mapping: the entry list is a permutation of
the original (same paths with the same records, hence the same hash, modify
and state values) and every lookup agrees with the original snapshot. -/
theorem c5_save_load_round_trip (s : Snapshot) (hnd : (dictKeys s).Nodup) :
    List.Perm (save_then_load s) s ∧
    ∀ fn, dictGet (save_then_load s) fn = dictGet s fn := by
  have hperm : List.Perm (save_then_load s) s := List.perm_insertionSort keyLE s
  refine ⟨hperm, fun fn => ?_⟩
  have hknd : (dictKeys (save_then_load s)).Nodup := ((hperm.map Prod.fst).nodup_iff).mpr hnd
  cases hc : dictGet s fn with
  | none =>
    have h1 : fn ∉ dictKeys s := dictGet_none_iff.mp hc
    exact dictGet_none_iff.mpr (fun hm => h1 ((hperm.map Prod.fst).mem_iff.mp hm))
  | some r =>
    exact dictGet_some_of_mem hknd (hperm.mem_iff.mpr (dictGet_mem hc))

/-- C5 witness: a concrete two-entry snapshot survives the round trip with
both lookups intact. -/
theorem c5_witness :
    dictGet (save_then_load [("b", ⟨JVal.str "h1", JVal.str "m1", some "new"⟩),
        ("a", ⟨JVal.str "h2", JVal.str "m2", some "changed"⟩)]) "a" =
      dictGet [("b", ⟨JVal.str "h1", JVal.str "m1", some "new"⟩),
        ("a", ⟨JVal.str "h2", JVal.str "m2", some "changed"⟩)] "a" :=
  (c5_save_load_round_trip
    [("b", ⟨JVal.str "h1", JVal.str "m1", some "new"⟩),
      ("a", ⟨JVal.str "h2", JVal.str "m2", some "changed"⟩)] (by decide)).2 "a"

/-- C6: the chunked streaming digest equals the single-pass digest of the
whole content for every digest function and every positive chunk size, and
in particular for the source's chunk size of 32768: chunking never affects
the resulting hash. -/
theorem c6_chunked_digest_eq_single_pass (H : List Nat → String) (c : Nat)
    (hc : 0 < c) (content : List Nat) :
    get_hash_chunked H c content = H content ∧ get_hash H content = H content := by
  constructor
  · rw [get_hash_chunked, chunksOf,
      readChunksFuel_foldl c hc content.length content [] (le_refl _), List.nil_append]
  · rw [get_hash, get_hash_chunked, chunksOf,
      readChunksFuel_foldl 32768 (by omega) content.length content [] (le_refl _),
      List.nil_append]

/-- C6 witness: with a concrete digest function and chunk size 3, the
streamed digest of a four-byte content equals the single-pass digest. -/
theorem c6_witness :
    get_hash_chunked (fun l => toString l.length) 3 [10, 20, 30, 40] =
        (fun l : List Nat => toString l.length) [10, 20, 30, 40] ∧
      get_hash (fun l => toString l.length) [10, 20, 30, 40] =
        (fun l : List Nat => toString l.length) [10, 20, 30, 40] :=
  c6_chunked_digest_eq_single_pass (fun l => toString l.length) 3 (by decide) [10, 20, 30, 40]

/-- C7: the classified output has an entry for a path exactly when the
current snapshot does — its key list is exactly the current snapshot's key
list, so entries only present in the previous snapshot (deleted files) leave
no trace in the output. -/
theorem c7_deletions_invisible (prev curr : Snapshot) :
    dictKeys (mark_changed_files prev curr).2 = dictKeys curr ∧
    ∀ fn, (∃ r, (fn, r) ∈ (mark_changed_files prev curr).2) ↔ (∃ r, (fn, r) ∈ curr) := by
  refine ⟨mark_changed_files_snd_keys prev curr, fun fn => ?_⟩
  rw [← mem_dictKeys, ← mem_dictKeys, mark_changed_files_snd_keys]

/-- C7 witness: a path present only in the previous snapshot leaves no
entry in the classified output. -/
theorem c7_witness :
    ¬ ∃ r, ("gone", r) ∈ (mark_changed_files [("gone", ⟨JVal.str "h", JVal.null, none⟩)]
      [("other", ⟨JVal.str "k", JVal.null, none⟩)]).2 := by
  intro h
  obtain ⟨r, hr⟩ := ((c7_deletions_invisible [("gone", ⟨JVal.str "h", JVal.null, none⟩)]
    [("other", ⟨JVal.str "k", JVal.null, none⟩)]).2 "gone").mp h
  rcases List.mem_cons.mp hr with hc | hc
  · have h1 : "gone" = "other" := congrArg Prod.fst hc
    exact absurd h1 (by decide)
  · exact absurd hc (List.not_mem_nil _)

/-- C8: classification is pure with respect to the previous snapshot — after
the loop the previous mapping is returned unchanged — and the current
snapshot is exactly rebuilt with states filled in: every output entry comes
from a current entry with the same hash and modify values and a filled
state. -/
theorem c8_pure_in_previous (prev curr : Snapshot) (hnd : (dictKeys curr).Nodup) :
    (mark_changed_files prev curr).1 = prev ∧
    (mark_changed_files prev curr).2 = markAll prev curr ∧
    ∀ fn r, (fn, r) ∈ (mark_changed_files prev curr).2 →
      ∃ r0, (fn, r0) ∈ curr ∧ r.hash = r0.hash ∧ r.modify = r0.modify ∧
        r.state = some (stateFor prev fn r0) := by
  refine ⟨mark_changed_files_fst prev curr, mark_changed_files_snd prev curr hnd, ?_⟩
  intro fn r hr
  rw [mark_changed_files_snd prev curr hnd, markAll] at hr
  obtain ⟨e, he, heq⟩ := List.mem_map.mp hr
  have h1 : e.1 = fn := congrArg Prod.fst heq
  have h2 : classifyRecord prev e.1 e.2 = r := congrArg Prod.snd heq
  refine ⟨e.2, ?_, ?_, ?_, ?_⟩
  · rw [← h1]
    exact he
  · rw [← h2]
    rfl
  · rw [← h2]
    rfl
  · rw [← h2, ← h1]
    rfl

/-- C8 witness: on concrete snapshots the previous mapping comes back
untouched and the current one is the entrywise rebuild. -/
theorem c8_witness :
    (mark_changed_files [("p", ⟨JVal.str "x", JVal.null, none⟩)]
        [("q", ⟨JVal.str "y", JVal.null, none⟩)]).1 =
      [("p", ⟨JVal.str "x", JVal.null, none⟩)] ∧
    (mark_changed_files [("p", ⟨JVal.str "x", JVal.null, none⟩)]
        [("q", ⟨JVal.str "y", JVal.null, none⟩)]).2 =
      markAll [("p", ⟨JVal.str "x", JVal.null, none⟩)]
        [("q", ⟨JVal.str "y", JVal.null, none⟩)] :=
  ⟨(c8_pure_in_previous [("p", ⟨JVal.str "x", JVal.null, none⟩)]
      [("q", ⟨JVal.str "y", JVal.null, none⟩)] (by decide)).1,
    (c8_pure_in_previous [("p", ⟨JVal.str "x", JVal.null, none⟩)]
      [("q", ⟨JVal.str "y", JVal.null, none⟩)] (by decide)).2.1⟩

/-- C9 counterexample: on a config-load failure the diagnostic does not go
to the standard error stream — `print` writes it to standard output, with
standard error left empty (the exit code is 1 and the logger is not yet
configured). -/
theorem c9_counterexample :
    (main_prologue ["run.py"] (fun _ => (none : Option ConfigDict))).stderrLines = [] ∧
    (main_prologue ["run.py"] (fun _ => (none : Option ConfigDict))).stdoutLines =
      [configErrorMessage] ∧
    (main_prologue ["run.py"] (fun _ => (none : Option ConfigDict))).exitCode = some 1 := by
  refine ⟨rfl, rfl, rfl⟩

/-- C9 (amended): on a fatal config-load failure (argument absent, or the
config file missing/unreadable/unparseable) the process exits with code 1
before any logging is configured, and the diagnostic goes to standard
output — not standard error, which stays empty. -/
theorem c9_fatal_config_failure (argv : List String)
    (loadConfig : String → Option ConfigDict)
    (h : argv[1]? = none ∨ ∃ cf, argv[1]? = some cf ∧ loadConfig cf = none) :
    (main_prologue argv loadConfig).exitCode = some 1 ∧
    (main_prologue argv loadConfig).loggerConfigured = false ∧
    (main_prologue argv loadConfig).stdoutLines = [configErrorMessage] ∧
    (main_prologue argv loadConfig).stderrLines = [] := by
  rcases h with h | ⟨cf, hcf, hload⟩
  · simp [main_prologue, h]
  · simp [main_prologue, hcf, hload]

/-- C9 witness: a run with no command-line argument exits 1 before logging,
with the diagnostic on standard output. -/
theorem c9_witness :
    (main_prologue ["run.py"] (fun _ => some ([] : ConfigDict))).exitCode = some 1 ∧
    (main_prologue ["run.py"] (fun _ => some ([] : ConfigDict))).loggerConfigured = false ∧
    (main_prologue ["run.py"] (fun _ => some ([] : ConfigDict))).stdoutLines =
      [configErrorMessage] ∧
    (main_prologue ["run.py"] (fun _ => some ([] : ConfigDict))).stderrLines = [] :=
  c9_fatal_config_failure ["run.py"] (fun _ => some ([] : ConfigDict)) (Or.inl rfl)

/-- C10: hash comparison is performed on the `str(...)` images of the stored
values: a path present in both snapshots whose hashes have equal string
representations is classified `unchanged`, even when the underlying values
differ in type. -/
theorem c10_str_hash_comparison (prev curr : Snapshot) (fn : String)
    (r p : FileRecord) (hnd : (dictKeys curr).Nodup) (hmem : (fn, r) ∈ curr)
    (hp : dictGet prev fn = some p) (hstr : pyStr r.hash = pyStr p.hash) :
    dictGet (mark_changed_files prev curr).2 fn =
      some { r with state := some "unchanged" } := by
  rw [mark_changed_files_snd prev curr hnd, dictGet_markAll,
    dictGet_some_of_mem hnd hmem, Option.map_some']
  have hsf : stateFor prev fn r = "unchanged" := by
    simp only [stateFor, hp]
    rw [if_neg (by simp [hstr])]
  rw [classifyRecord, hsf]

/-- C10 witness: the number `5` in the prior snapshot and the string `"5"`
in the current one have equal `str(...)` images, so the entry is classified
`unchanged` despite the type difference. -/
theorem c10_witness :
    dictGet (mark_changed_files [("a", ⟨JVal.num 5, JVal.null, none⟩)]
        [("a", ⟨JVal.str "5", JVal.null, none⟩)]).2 "a" =
      some ⟨JVal.str "5", JVal.null, some "unchanged"⟩ :=
  c10_str_hash_comparison [("a", ⟨JVal.num 5, JVal.null, none⟩)]
    [("a", ⟨JVal.str "5", JVal.null, none⟩)] "a"
    ⟨JVal.str "5", JVal.null, none⟩ ⟨JVal.num 5, JVal.null, none⟩
    (by decide) (by decide) (by decide) (by decide)

end HashScripts
